import Mathlib

/-!
Formal model of the product-search module of the bringo_chef_ai_assistant
repository (`sub_agents/product_search/tools.py` together with
`shared/config.py` and `shared/models.py`), and theorems settling the
specification claims about it.

Python strings are modelled as lists of characters, Python floats as
rationals, network and AI calls as explicit oracle parameters, and raised
exceptions as `Option`/`Except` values.
-/

/-- A Python string, modelled characterwise. -/
abbrev Str := List Char

/-- Python `str.lower()`, modelled characterwise. -/
def strLower (s : Str) : Str := s.map Char.toLower

/-- Python `str.strip()`: drop leading and trailing whitespace. -/
def strStrip (s : Str) : Str :=
  ((s.dropWhile Char.isWhitespace).reverse.dropWhile Char.isWhitespace).reverse

/-- Python `str.split()` with no argument: split on whitespace runs and drop
empty chunks. -/
def strWords (s : Str) : List Str :=
  (List.splitOnP Char.isWhitespace s).filter (fun w => w ≠ [])

/-- Python substring test `sub in s` on strings (contiguous infix, true for
the empty string). -/
def strContains (s sub : Str) : Bool := decide (sub <:+: s)

/-- Python `s.startswith(p)`. -/
def strStartsWith (s p : Str) : Bool := decide (p <+: s)

/-- Round a rational to the nearest integer, ties to even: the rounding used
by Python's builtin `round`. -/
def roundHalfEven (q : ℚ) : ℤ :=
  if q - ⌊q⌋ < 1/2 then ⌊q⌋
  else if (1:ℚ)/2 < q - ⌊q⌋ then ⌊q⌋ + 1
  else if ⌊q⌋ % 2 = 0 then ⌊q⌋ else ⌊q⌋ + 1

/-- Python `round(x, 2)`. -/
def round2 (q : ℚ) : ℚ := (roundHalfEven (q * 100) : ℚ) / 100

/-- Configuration default `max_products_per_search` from
`BringoChefSettings` in `shared/config.py`. -/
def max_products_per_search : Nat := 8

/-- Configuration default `max_concurrent_requests` from
`BringoChefSettings` in `shared/config.py`. -/
def max_concurrent_requests : Nat := 5

/-- Configuration default `max_retry_attempts` from `BringoChefSettings`
in `shared/config.py`. -/
def max_retry_attempts : Nat := 3

/-- The `ProductInfo` model from `shared/models.py`. -/
structure ProductInfo where
  name : Str
  price : ℚ
  url : Str
  available : Bool
  relevance_score : ℚ
  package_size : Option Str
deriving DecidableEq

/-- The `ProductSearchResult` model from `shared/models.py`. -/
structure ProductSearchResult where
  ingredient : Str
  search_terms_used : List Str
  products_found : List ProductInfo
  best_recommendation : Option ProductInfo
  total_found : Nat
  search_success : Bool
deriving DecidableEq

/-- `BringoSearchClient._calculate_relevance` from
`sub_agents/product_search/tools.py`. -/
def calculate_relevance (product_name search_term : Str) : ℚ :=
  let product_lower := strLower product_name
  let search_lower := strLower search_term
  if strContains product_lower search_lower then 1
  else
    let search_words := (strWords search_lower).toFinset
    let product_words := (strWords product_lower).toFinset
    let common_words := search_words ∩ product_words
    if search_words = ∅ then 0
    else
      let base_score : ℚ := (common_words.card : ℚ) / (search_words.card : ℚ)
      let base_score :=
        if strStartsWith product_lower search_lower then base_score + 2/10 else base_score
      min 1 base_score

/-- The relevance formula exactly as the specification states it: 1.0 when the
case-folded term is a substring of the candidate name, otherwise the
word-overlap fraction (0 when the term has no words) plus an additive 0.2
bonus when the name starts with the term, capped at 1.0. -/
def relevance_spec (product_name search_term : Str) : ℚ :=
  let product_lower := strLower product_name
  let search_lower := strLower search_term
  if strContains product_lower search_lower then 1
  else
    let search_words := (strWords search_lower).toFinset
    let product_words := (strWords product_lower).toFinset
    let overlap : ℚ :=
      if search_words = ∅ then 0
      else ((search_words ∩ product_words).card : ℚ) / (search_words.card : ℚ)
    min 1 (overlap + (if strStartsWith product_lower search_lower then 2/10 else 0))

theorem strStartsWith_imp_contains (s p : Str) (h : strStartsWith s p = true) :
    strContains s p = true := by
  unfold strStartsWith at h
  unfold strContains
  exact decide_eq_true (of_decide_eq_true h).isInfix

/-- C3: for every candidate name and search term, the relevance score computed
by the code equals the specification's formula: 1.0 on a case-folded substring
match, otherwise the word-overlap fraction (0 when the term has no words) plus
a 0.2 head-anchored bonus, capped at 1.0. -/
theorem C3_relevance_matches_spec (product_name search_term : Str) :
    calculate_relevance product_name search_term = relevance_spec product_name search_term := by
  unfold calculate_relevance relevance_spec
  by_cases hsub : strContains (strLower product_name) (strLower search_term) = true
  · simp [hsub]
  · have hpre : strStartsWith (strLower product_name) (strLower search_term) = false := by
      rcases Bool.eq_false_or_eq_true
          (strStartsWith (strLower product_name) (strLower search_term)) with h | h
      · exact absurd (strStartsWith_imp_contains _ _ h) hsub
      · exact h
    have hsub' : strContains (strLower product_name) (strLower search_term) = false :=
      Bool.eq_false_iff.mpr hsub
    simp only [hsub', hpre, Bool.false_eq_true, if_false, add_zero]
    by_cases hw : (strWords (strLower search_term)).toFinset = ∅
    · simp only [hw, if_true, eq_self_iff_true]
      norm_num
    · simp [hw]

/-- Witness for C3 at a concrete input. -/
theorem C3_relevance_matches_spec_witness :
    calculate_relevance (String.toList "lapte zuzu") (String.toList "lapte")
      = relevance_spec (String.toList "lapte zuzu") (String.toList "lapte") :=
  C3_relevance_matches_spec (String.toList "lapte zuzu") (String.toList "lapte")

/-- The deduplication key of `_deduplicate_products`:
`(product.name.lower().strip(), round(product.price, 2))`. -/
def dedupKey (p : ProductInfo) : Str × ℚ := (strStrip (strLower p.name), round2 p.price)

/-- The loop of `_deduplicate_products`, carried out with the running `seen`
set made explicit. -/
def dedupGo : List ProductInfo → Finset (Str × ℚ) → List ProductInfo
  | [], _ => []
  | p :: rest, seen =>
    if dedupKey p ∈ seen then dedupGo rest seen
    else p :: dedupGo rest (insert (dedupKey p) seen)

/-- `_deduplicate_products` from `sub_agents/product_search/tools.py`: keep the
first product for each (lowercased stripped name, price rounded to 2 decimals)
key. -/
def deduplicate_products (products : List ProductInfo) : List ProductInfo :=
  dedupGo products ∅

/-- The comparison behind `sort(key=lambda p: (-p.relevance_score, p.price))`:
descending relevance, ascending price on equal relevance. -/
def productLE (p q : ProductInfo) : Bool :=
  if p.relevance_score = q.relevance_score then decide (p.price ≤ q.price)
  else decide (q.relevance_score < p.relevance_score)

/-- The sort `unique_products.sort(key=lambda p: (-p.relevance_score, p.price))`. -/
def sortProducts (ps : List ProductInfo) : List ProductInfo := ps.mergeSort productLE

/-- State of the term loop in `_search_single_ingredient`. The
`attempted_terms` field records, in order, the terms the loop body actually
ran for (the terms fetched); it is determined by the loop's control flow. -/
structure SearchLoopState where
  all_products : List ProductInfo
  successful_terms : List Str
  attempted_terms : List Str
deriving DecidableEq

/-- The `for term in search_terms` loop of `_search_single_ingredient`.
`fetch term = none` models `client.search_product(term)` raising (caught by
the `except` clause, which continues with the next term); `some ps` is the
returned product list. A term is recorded in `successful_terms` and its
products accumulated only when the list is non-empty; the loop breaks once
the accumulated product count reaches `maxPer`
(`settings.max_products_per_search`). -/
def trySearchTerms (fetch : Str → Option (List ProductInfo)) (maxPer : Nat) :
    List Str → SearchLoopState → SearchLoopState
  | [], st => st
  | term :: rest, st =>
    let st0 : SearchLoopState :=
      { st with attempted_terms := st.attempted_terms ++ [term] }
    match fetch term with
    | none => trySearchTerms fetch maxPer rest st0
    | some [] => trySearchTerms fetch maxPer rest st0
    | some (p :: ps) =>
      let st1 : SearchLoopState :=
        { st0 with
          all_products := st0.all_products ++ (p :: ps)
          successful_terms := st0.successful_terms ++ [term] }
      if maxPer ≤ st1.all_products.length then st1
      else trySearchTerms fetch maxPer rest st1

/-- `_search_single_ingredient` from `sub_agents/product_search/tools.py`,
with the search-term ladder (produced by `_generate_search_terms`) and the
network client passed as parameters. -/
def search_single_ingredient (fetch : Str → Option (List ProductInfo)) (maxPer : Nat)
    (ingredient_name : Str) (search_terms : List Str) : ProductSearchResult :=
  let st := trySearchTerms fetch maxPer search_terms ⟨[], [], []⟩
  let unique_products := sortProducts (deduplicate_products st.all_products)
  { ingredient := ingredient_name
    search_terms_used := st.successful_terms
    products_found := unique_products.take maxPer
    best_recommendation := unique_products.head?
    total_found := unique_products.length
    search_success := decide (0 < unique_products.length) }

theorem trySearchTerms_spec (fetch : Str → Option (List ProductInfo)) (maxPer : Nat) :
    ∀ (terms : List Str) (st0 : SearchLoopState),
      ∃ att new,
        (trySearchTerms fetch maxPer terms st0).attempted_terms
            = st0.attempted_terms ++ att ∧
        (trySearchTerms fetch maxPer terms st0).successful_terms
            = st0.successful_terms ++ new ∧
        att <+: terms ∧
        new.Sublist att ∧
        (∀ t ∈ new, ∃ p ps, fetch t = some (p :: ps)) ∧
        (att ≠ terms →
          maxPer ≤ (trySearchTerms fetch maxPer terms st0).all_products.length) := by
  intro terms
  induction terms with
  | nil =>
    intro st0
    refine ⟨[], [], by simp [trySearchTerms], by simp [trySearchTerms], List.prefix_rfl,
      List.Sublist.refl _, by simp, fun h => absurd rfl h⟩
  | cons t rest ih =>
    intro st0
    cases hf : fetch t with
    | none =>
      obtain ⟨att, new, h1, h2, h3, h4, h5, h6⟩ :=
        ih { st0 with attempted_terms := st0.attempted_terms ++ [t] }
      refine ⟨t :: att, new, ?_, ?_, ?_, List.Sublist.cons t h4, h5, ?_⟩
      · simp only [trySearchTerms, hf]
        rw [h1]; simp
      · simp only [trySearchTerms, hf]
        exact h2
      · obtain ⟨u, hu⟩ := h3
        exact ⟨u, by simp [hu]⟩
      · intro hne
        simp only [trySearchTerms, hf]
        apply h6
        intro he
        exact hne (by rw [he])
    | some products =>
      cases products with
      | nil =>
        obtain ⟨att, new, h1, h2, h3, h4, h5, h6⟩ :=
          ih { st0 with attempted_terms := st0.attempted_terms ++ [t] }
        refine ⟨t :: att, new, ?_, ?_, ?_, List.Sublist.cons t h4, h5, ?_⟩
        · simp only [trySearchTerms, hf]
          rw [h1]; simp
        · simp only [trySearchTerms, hf]
          exact h2
        · obtain ⟨u, hu⟩ := h3
          exact ⟨u, by simp [hu]⟩
        · intro hne
          simp only [trySearchTerms, hf]
          apply h6
          intro he
          exact hne (by rw [he])
      | cons p ps =>
        by_cases hle : maxPer ≤ (st0.all_products ++ (p :: ps)).length
        · refine ⟨[t], [t], ?_, ?_, ⟨rest, rfl⟩, List.Sublist.refl _, ?_, ?_⟩
          · simp only [trySearchTerms, hf]
            rw [if_pos hle]
          · simp only [trySearchTerms, hf]
            rw [if_pos hle]
          · intro x hx
            rw [List.mem_singleton] at hx
            subst hx
            exact ⟨p, ps, hf⟩
          · intro _
            simp only [trySearchTerms, hf]
            rw [if_pos hle]
            exact hle
        · obtain ⟨att, new, h1, h2, h3, h4, h5, h6⟩ :=
            ih { st0 with
                  all_products := st0.all_products ++ (p :: ps)
                  successful_terms := st0.successful_terms ++ [t]
                  attempted_terms := st0.attempted_terms ++ [t] }
          refine ⟨t :: att, t :: new, ?_, ?_, ?_, List.Sublist.cons₂ t h4, ?_, ?_⟩
          · simp only [trySearchTerms, hf]
            rw [if_neg hle, h1]; simp
          · simp only [trySearchTerms, hf]
            rw [if_neg hle, h2]; simp
          · obtain ⟨u, hu⟩ := h3
            exact ⟨u, by simp [hu]⟩
          · intro x hx
            rcases List.mem_cons.mp hx with hx | hx
            · subst hx; exact ⟨p, ps, hf⟩
            · exact h5 x hx
          · intro hne
            simp only [trySearchTerms, hf]
            rw [if_neg hle]
            apply h6
            intro he
            exact hne (by rw [he])

/-- A concrete product returned for the first counterexample term. -/
def c1ProductA : ProductInfo :=
  { name := String.toList "lapte zuzu 1l", price := 7, url := [], available := true,
    relevance_score := 1, package_size := none }

/-- A concrete product returned for the second counterexample term. -/
def c1ProductB : ProductInfo :=
  { name := String.toList "lapte alt 1l", price := 5, url := [], available := true,
    relevance_score := 1, package_size := none }

/-- A concrete fetch oracle: term "a" yields one usable product, term "b"
yields another, everything else yields none. -/
def c1Fetch : Str → Option (List ProductInfo) := fun t =>
  if t = String.toList "a" then some [c1ProductA]
  else if t = String.toList "b" then some [c1ProductB]
  else some []

/-- C1 counterexample: the first term "a" yields one usable candidate, yet the
later term "b" is still fetched and recorded as well, because one product is
fewer than `max_products_per_search` (8). The claim predicts that no term
after "a" is fetched. -/
theorem C1_counterexample :
    (search_single_ingredient c1Fetch max_products_per_search (String.toList "milk")
        [String.toList "a", String.toList "b"]).search_terms_used
      = [String.toList "a", String.toList "b"] := by decide

/-- C1 (amended): the term loop of `_search_single_ingredient` attempts the
planned terms in order and stops before exhausting the ladder only when the
accumulated product count has reached `max_products_per_search`; a term that
yields at least one candidate but leaves the accumulated count below that cap
does not stop the ladder. -/
theorem C1_fallback_stops_only_at_cap (fetch : Str → Option (List ProductInfo))
    (maxPer : Nat) (terms : List Str) :
    (trySearchTerms fetch maxPer terms ⟨[], [], []⟩).attempted_terms <+: terms ∧
    ((trySearchTerms fetch maxPer terms ⟨[], [], []⟩).attempted_terms ≠ terms →
      maxPer ≤ (trySearchTerms fetch maxPer terms ⟨[], [], []⟩).all_products.length) := by
  obtain ⟨att, new, h1, h2, h3, h4, h5, h6⟩ :=
    trySearchTerms_spec fetch maxPer terms ⟨[], [], []⟩
  rw [List.nil_append] at h1
  constructor
  · rw [h1]; exact h3
  · intro hne
    exact h6 (fun he => hne (by rw [h1, he]))

/-- Witness for the amended C1 theorem at a concrete input. -/
theorem C1_fallback_stops_only_at_cap_witness :
    (trySearchTerms c1Fetch max_products_per_search [String.toList "a"]
        ⟨[], [], []⟩).attempted_terms <+: [String.toList "a"] ∧
    ((trySearchTerms c1Fetch max_products_per_search [String.toList "a"]
        ⟨[], [], []⟩).attempted_terms ≠ [String.toList "a"] →
      max_products_per_search ≤
        (trySearchTerms c1Fetch max_products_per_search [String.toList "a"]
          ⟨[], [], []⟩).all_products.length) :=
  C1_fallback_stops_only_at_cap c1Fetch max_products_per_search [String.toList "a"]

/-- A concrete product found by the second term of the C6 counterexample. -/
def c6Product : ProductInfo :=
  { name := String.toList "faina alba", price := 4, url := [], available := true,
    relevance_score := 1, package_size := none }

/-- A concrete fetch oracle for C6: the first term "a" yields no products, the
second term "b" yields one. -/
def c6Fetch : Str → Option (List ProductInfo) := fun t =>
  if t = String.toList "b" then some [c6Product] else some []

/-- C6 counterexample: term "a" is tried first and yields nothing, term "b"
then succeeds. The claim predicts a recorded history of ["a", "b"] (an
attempt record for every term tried, truncated at the first success); the
code records only ["b"], because `successful_terms` is appended only for
terms whose product list is non-empty. -/
theorem C6_counterexample :
    (search_single_ingredient c6Fetch max_products_per_search (String.toList "flour")
        [String.toList "a", String.toList "b"]).search_terms_used
      = [String.toList "b"] ∧
    [String.toList "b"] ≠ [String.toList "a", String.toList "b"] := by decide

/-- Whether fetching a term yields at least one product: the condition under
which the loop of `_search_single_ingredient` records the term. -/
def fetchYields (fetch : Str → Option (List ProductInfo)) (t : Str) : Bool :=
  match fetch t with
  | some (_ :: _) => true
  | _ => false

theorem trySearchTerms_filter_invariant (fetch : Str → Option (List ProductInfo))
    (maxPer : Nat) :
    ∀ (terms : List Str) (st0 : SearchLoopState),
      st0.successful_terms = st0.attempted_terms.filter (fetchYields fetch) →
      (trySearchTerms fetch maxPer terms st0).successful_terms
        = ((trySearchTerms fetch maxPer terms st0).attempted_terms).filter
            (fetchYields fetch) := by
  intro terms
  induction terms with
  | nil =>
    intro st0 h0
    exact h0
  | cons t rest ih =>
    intro st0 h0
    cases hf : fetch t with
    | none =>
      have hft : fetchYields fetch t = false := by simp [fetchYields, hf]
      simp only [trySearchTerms, hf]
      apply ih
      show st0.successful_terms = (st0.attempted_terms ++ [t]).filter (fetchYields fetch)
      rw [List.filter_append, h0]
      simp [hft]
    | some products =>
      cases products with
      | nil =>
        have hft : fetchYields fetch t = false := by simp [fetchYields, hf]
        simp only [trySearchTerms, hf]
        apply ih
        show st0.successful_terms = (st0.attempted_terms ++ [t]).filter (fetchYields fetch)
        rw [List.filter_append, h0]
        simp [hft]
      | cons p ps =>
        have hft : fetchYields fetch t = true := by simp [fetchYields, hf]
        have hinv : st0.successful_terms ++ [t]
            = (st0.attempted_terms ++ [t]).filter (fetchYields fetch) := by
          rw [List.filter_append, h0]
          simp [hft]
        simp only [trySearchTerms, hf]
        by_cases hle : maxPer ≤ (st0.all_products ++ (p :: ps)).length
        · rw [if_pos hle]
          exact hinv
        · rw [if_neg hle]
          exact ih _ hinv

/-- C6 (amended): the recorded term history (`search_terms_used`) of an
ingredient resolution equals, in both directions, the subsequence of the
attempted prefix of the planner's output consisting exactly of the terms
whose fetch yielded at least one product, in planner order: every attempted
term with a non-empty product list is recorded and nothing else is; terms
that yielded no products (or raised) are not recorded. -/
theorem C6_history_is_successful_terms (fetch : Str → Option (List ProductInfo))
    (maxPer : Nat) (ingredient_name : Str) (terms : List Str) :
    (search_single_ingredient fetch maxPer ingredient_name terms).search_terms_used
        = ((trySearchTerms fetch maxPer terms ⟨[], [], []⟩).attempted_terms).filter
            (fetchYields fetch) ∧
    (trySearchTerms fetch maxPer terms ⟨[], [], []⟩).attempted_terms <+: terms ∧
    ((search_single_ingredient fetch maxPer ingredient_name terms).search_terms_used).Sublist
        terms ∧
    ∀ t ∈ (search_single_ingredient fetch maxPer ingredient_name terms).search_terms_used,
      ∃ p ps, fetch t = some (p :: ps) := by
  obtain ⟨att, new, h1, h2, h3, h4, h5, h6⟩ :=
    trySearchTerms_spec fetch maxPer terms ⟨[], [], []⟩
  have hs : (search_single_ingredient fetch maxPer ingredient_name terms).search_terms_used
      = (trySearchTerms fetch maxPer terms ⟨[], [], []⟩).successful_terms := rfl
  have hfil := trySearchTerms_filter_invariant fetch maxPer terms ⟨[], [], []⟩ rfl
  refine ⟨by rw [hs, hfil], ?_, ?_, ?_⟩
  · rw [h1, List.nil_append]
    exact h3
  · rw [hs, h2, List.nil_append]
    exact h4.trans h3.sublist
  · rw [hs, h2, List.nil_append]
    exact h5

/-- Witness for the amended C6 theorem at a concrete input. -/
theorem C6_history_is_successful_terms_witness :
    (search_single_ingredient c6Fetch max_products_per_search (String.toList "flour")
        [String.toList "a", String.toList "b"]).search_terms_used
        = ((trySearchTerms c6Fetch max_products_per_search
            [String.toList "a", String.toList "b"] ⟨[], [], []⟩).attempted_terms).filter
            (fetchYields c6Fetch) ∧
    (trySearchTerms c6Fetch max_products_per_search [String.toList "a", String.toList "b"]
        ⟨[], [], []⟩).attempted_terms <+: [String.toList "a", String.toList "b"] ∧
    ((search_single_ingredient c6Fetch max_products_per_search (String.toList "flour")
        [String.toList "a", String.toList "b"]).search_terms_used).Sublist
        [String.toList "a", String.toList "b"] ∧
    ∀ t ∈ (search_single_ingredient c6Fetch max_products_per_search (String.toList "flour")
        [String.toList "a", String.toList "b"]).search_terms_used,
      ∃ p ps, c6Fetch t = some (p :: ps) :=
  C6_history_is_successful_terms c6Fetch max_products_per_search (String.toList "flour")
    [String.toList "a", String.toList "b"]

theorem dedupGo_key_not_mem (ps : List ProductInfo) :
    ∀ (seen : Finset (Str × ℚ)) (x : ProductInfo),
      x ∈ dedupGo ps seen → dedupKey x ∉ seen := by
  induction ps with
  | nil =>
    intro seen x hx
    simp [dedupGo] at hx
  | cons p rest ih =>
    intro seen x hx
    by_cases hp : dedupKey p ∈ seen
    · rw [dedupGo, if_pos hp] at hx
      exact ih seen x hx
    · rw [dedupGo, if_neg hp] at hx
      rcases List.mem_cons.mp hx with h | h
      · subst h; exact hp
      · intro hmem
        exact (ih _ x h) (Finset.mem_insert_of_mem hmem)

theorem dedupGo_pairwise (ps : List ProductInfo) :
    ∀ seen, (dedupGo ps seen).Pairwise (fun p q => dedupKey p ≠ dedupKey q) := by
  induction ps with
  | nil =>
    intro seen
    simp [dedupGo]
  | cons p rest ih =>
    intro seen
    by_cases hp : dedupKey p ∈ seen
    · rw [dedupGo, if_pos hp]
      exact ih seen
    · rw [dedupGo, if_neg hp]
      refine List.Pairwise.cons ?_ (ih _)
      intro x hx he
      apply dedupGo_key_not_mem rest _ x hx
      rw [← he]
      exact Finset.mem_insert_self _ _

theorem productLE_trans (a b c : ProductInfo) (hab : productLE a b = true)
    (hbc : productLE b c = true) : productLE a c = true := by
  unfold productLE at *
  by_cases h1 : a.relevance_score = b.relevance_score
  · by_cases h2 : b.relevance_score = c.relevance_score
    · rw [if_pos h1] at hab
      rw [if_pos h2] at hbc
      rw [if_pos (h1.trans h2)]
      exact decide_eq_true (le_trans (of_decide_eq_true hab) (of_decide_eq_true hbc))
    · rw [if_neg h2] at hbc
      have hac : a.relevance_score ≠ c.relevance_score := by rw [h1]; exact h2
      rw [if_neg hac]
      exact decide_eq_true (by rw [h1]; exact of_decide_eq_true hbc)
  · by_cases h2 : b.relevance_score = c.relevance_score
    · rw [if_neg h1] at hab
      have hac : a.relevance_score ≠ c.relevance_score :=
        fun h => h1 (h.trans h2.symm)
      rw [if_neg hac]
      exact decide_eq_true (by rw [← h2]; exact of_decide_eq_true hab)
    · rw [if_neg h1] at hab
      rw [if_neg h2] at hbc
      have hlt : c.relevance_score < a.relevance_score :=
        lt_trans (of_decide_eq_true hbc) (of_decide_eq_true hab)
      rw [if_neg (ne_of_gt hlt)]
      exact decide_eq_true hlt

theorem productLE_total (a b : ProductInfo) : (productLE a b || productLE b a) = true := by
  unfold productLE
  by_cases h : a.relevance_score = b.relevance_score
  · rw [if_pos h, if_pos h.symm]
    rcases le_total a.price b.price with hp | hp
    · rw [decide_eq_true hp]
      exact Bool.true_or _
    · rw [decide_eq_true hp]
      exact Bool.or_true _
  · rw [if_neg h, if_neg (Ne.symm h)]
    rcases lt_or_gt_of_ne h with hlt | hlt
    · rw [decide_eq_true hlt]
      exact Bool.or_true _
    · rw [decide_eq_true hlt]
      exact Bool.true_or _

theorem productLE_imp_ranked (a b : ProductInfo) (h : productLE a b = true) :
    b.relevance_score ≤ a.relevance_score ∧
      (a.relevance_score = b.relevance_score → a.price ≤ b.price) := by
  unfold productLE at h
  by_cases he : a.relevance_score = b.relevance_score
  · rw [if_pos he] at h
    exact ⟨le_of_eq he.symm, fun _ => of_decide_eq_true h⟩
  · rw [if_neg he] at h
    exact ⟨le_of_lt (of_decide_eq_true h), fun hc => absurd hc he⟩

/-- C4: every ranked candidate list produced for an ingredient is well-formed:
no two of its candidates share an identical (name, price) pair, adjacent
candidates are in descending relevance with ascending price on equal
relevance, and the best recommendation is exactly the head of the list
obtained after deduplication and sorting (none when that list is empty). -/
theorem C4_ranked_list_wellformed (fetch : Str → Option (List ProductInfo))
    (maxPer : Nat) (ingredient_name : Str) (terms : List Str) :
    ((search_single_ingredient fetch maxPer ingredient_name terms).products_found).Pairwise
        (fun p q => ¬(p.name = q.name ∧ p.price = q.price)) ∧
    List.Chain' (fun p q => q.relevance_score ≤ p.relevance_score ∧
        (p.relevance_score = q.relevance_score → p.price ≤ q.price))
      ((search_single_ingredient fetch maxPer ingredient_name terms).products_found) ∧
    (search_single_ingredient fetch maxPer ingredient_name terms).best_recommendation
      = (sortProducts (deduplicate_products
          (trySearchTerms fetch maxPer terms ⟨[], [], []⟩).all_products)).head? ∧
    ((search_single_ingredient fetch maxPer ingredient_name terms).best_recommendation = none
      ↔ sortProducts (deduplicate_products
          (trySearchTerms fetch maxPer terms ⟨[], [], []⟩).all_products) = []) := by
  have hfound : (search_single_ingredient fetch maxPer ingredient_name terms).products_found
      = (sortProducts (deduplicate_products
          (trySearchTerms fetch maxPer terms ⟨[], [], []⟩).all_products)).take maxPer := rfl
  have hbest : (search_single_ingredient fetch maxPer ingredient_name terms).best_recommendation
      = (sortProducts (deduplicate_products
          (trySearchTerms fetch maxPer terms ⟨[], [], []⟩).all_products)).head? := rfl
  have hperm : (sortProducts (deduplicate_products
      (trySearchTerms fetch maxPer terms ⟨[], [], []⟩).all_products)).Perm
        (deduplicate_products (trySearchTerms fetch maxPer terms ⟨[], [], []⟩).all_products) :=
    List.mergeSort_perm _ _
  have hkeys : (sortProducts (deduplicate_products
      (trySearchTerms fetch maxPer terms ⟨[], [], []⟩).all_products)).Pairwise
        (fun p q => dedupKey p ≠ dedupKey q) :=
    (List.Perm.pairwise_iff (fun h => Ne.symm h) hperm).mpr (dedupGo_pairwise _ _)
  have hsorted : (sortProducts (deduplicate_products
      (trySearchTerms fetch maxPer terms ⟨[], [], []⟩).all_products)).Pairwise
        (fun p q => productLE p q = true) :=
    List.sorted_mergeSort productLE_trans productLE_total _
  refine ⟨?_, ?_, hbest, ?_⟩
  · rw [hfound]
    refine List.Pairwise.sublist (List.take_sublist _ _) (hkeys.imp ?_)
    intro a b hk hab
    apply hk
    unfold dedupKey
    rw [hab.1, hab.2]
  · rw [hfound]
    exact (List.Pairwise.sublist (List.take_sublist _ _)
      (hsorted.imp (fun h => productLE_imp_ranked _ _ h))).chain'
  · rw [hbest]
    exact List.head?_eq_none_iff

/-- Witness for C4 at a concrete input. -/
theorem C4_ranked_list_wellformed_witness :
    ((search_single_ingredient c1Fetch max_products_per_search (String.toList "milk")
        [String.toList "a"]).products_found).Pairwise
        (fun p q => ¬(p.name = q.name ∧ p.price = q.price)) ∧
    List.Chain' (fun p q => q.relevance_score ≤ p.relevance_score ∧
        (p.relevance_score = q.relevance_score → p.price ≤ q.price))
      ((search_single_ingredient c1Fetch max_products_per_search (String.toList "milk")
        [String.toList "a"]).products_found) ∧
    (search_single_ingredient c1Fetch max_products_per_search (String.toList "milk")
        [String.toList "a"]).best_recommendation
      = (sortProducts (deduplicate_products
          (trySearchTerms c1Fetch max_products_per_search [String.toList "a"]
            ⟨[], [], []⟩).all_products)).head? ∧
    ((search_single_ingredient c1Fetch max_products_per_search (String.toList "milk")
        [String.toList "a"]).best_recommendation = none
      ↔ sortProducts (deduplicate_products
          (trySearchTerms c1Fetch max_products_per_search [String.toList "a"]
            ⟨[], [], []⟩).all_products) = []) :=
  C4_ranked_list_wellformed c1Fetch max_products_per_search (String.toList "milk")
    [String.toList "a"]

/-- Outcome of one HTTP request in `BringoSearchClient.search_product`:
a response with a status code and HTML body, a timeout
(`asyncio.TimeoutError`), or any other raised exception. -/
inductive HttpOutcome where
  | response (status : Nat) (body : Str)
  | timeoutErr
  | otherErr
deriving DecidableEq

/-- `BringoSearchClient.search_product` from
`sub_agents/product_search/tools.py`. `net k` is the outcome the network
would give to the (k+1)-th request of this call; the body issues exactly one
`session.get`, so only `net 0` is ever consulted. `parse` abstracts
`_parse_products` applied to the response HTML. A non-200 status, a timeout
and any other exception all return the empty list. -/
def search_product (net : Nat → HttpOutcome) (parse : Str → List ProductInfo) :
    List ProductInfo :=
  match net 0 with
  | .response status body => if status = 200 then parse body else []
  | .timeoutErr => []
  | .otherErr => []

/-- Number of HTTP requests one call of `search_product` issues: its body
contains a single `session.get` and no retry loop, so exactly one request is
made regardless of the outcome. -/
def search_product_requests (net : Nat → HttpOutcome) : Nat :=
  match net 0 with
  | .response _ _ => 1
  | .timeoutErr => 1
  | .otherErr => 1

/-- A transient failure in the sense of the specification: timeout,
connection failure or other error, or a non-2xx (here: non-200) response. -/
def transientFailure : HttpOutcome → Bool
  | .response status _ => decide (status ≠ 200)
  | .timeoutErr => true
  | .otherErr => true

/-- Concrete HTML body for the C2 counterexample. -/
def c2Body : Str := String.toList "pagina cu produse"

/-- Concrete product that a successful parse of `c2Body` yields. -/
def c2Product : ProductInfo :=
  { name := String.toList "ulei floarea soarelui", price := 11, url := [], available := true,
    relevance_score := 1, package_size := none }

/-- Concrete parse oracle for the C2 counterexample. -/
def c2Parse : Str → List ProductInfo := fun b => if b = c2Body then [c2Product] else []

/-- Concrete network schedule for the C2 counterexample: the first request
times out, every later request would succeed with status 200. -/
def c2Net : Nat → HttpOutcome := fun k =>
  if k = 0 then HttpOutcome.timeoutErr else HttpOutcome.response 200 c2Body

/-- C2 counterexample: on a timeout of the first request, `search_product`
returns the empty list after exactly one request — fewer than
`max_retry_attempts` — even though a second request would have returned a
page with a product. No retry with exponential backoff happens, and no
terminal NetworkError value is returned (the return type carries no error at
all; the empty list is indistinguishable from "no candidates"). -/
theorem C2_counterexample :
    search_product c2Net c2Parse = [] ∧
    search_product_requests c2Net = 1 ∧
    search_product_requests c2Net < max_retry_attempts ∧
    c2Net 1 = HttpOutcome.response 200 c2Body ∧
    c2Parse c2Body = [c2Product] := by decide

/-- C2 (amended): on any transient failure (timeout, connection or other
error, non-200 status) `search_product` issues exactly one request, performs
no retries, and returns the empty candidate list (treated upstream as zero
candidates for the term) rather than an error value. -/
theorem C2_no_retry_on_transient_failure (net : Nat → HttpOutcome)
    (parse : Str → List ProductInfo) (h : transientFailure (net 0) = true) :
    search_product net parse = [] ∧ search_product_requests net = 1 := by
  unfold search_product search_product_requests
  unfold transientFailure at h
  cases hn : net 0 with
  | response status body =>
    rw [hn] at h
    have h' : decide (status ≠ 200) = true := h
    refine ⟨?_, rfl⟩
    show (if status = 200 then parse body else []) = []
    rw [if_neg (of_decide_eq_true h')]
  | timeoutErr => exact ⟨rfl, rfl⟩
  | otherErr => exact ⟨rfl, rfl⟩

/-- Witness for the amended C2 theorem at a concrete input. -/
theorem C2_no_retry_on_transient_failure_witness :
    transientFailure (c2Net 0) = true ∧
    (search_product c2Net c2Parse = [] ∧ search_product_requests c2Net = 1) :=
  ⟨by decide, C2_no_retry_on_transient_failure c2Net c2Parse (by decide)⟩

/-- An ingredient entry as produced by `_extract_search_ingredients`. -/
structure IngredientSpec where
  name : Str
  romanian_name : Str
  importance : Str
  estimated_cost : ℚ
deriving DecidableEq

/-- The empty result `_execute_concurrent_searches` appends for a worker
whose task came back as an exception from `asyncio.gather(...,
return_exceptions=True)`. -/
def failedSearchResult (ing : IngredientSpec) : ProductSearchResult :=
  { ingredient := ing.name
    search_terms_used := [ing.romanian_name]
    products_found := []
    best_recommendation := none
    total_found := 0
    search_success := false }

/-- `_execute_concurrent_searches` from `sub_agents/product_search/tools.py`:
one `_search_single_ingredient` task per ingredient, gathered with
`return_exceptions=True`; a task that raised is replaced by a failed empty
result, and results are collected in input order. `worker` abstracts one
ingredient's complete resolution; `.error` models the raised exception. -/
def execute_concurrent_searches (ingredients : List IngredientSpec)
    (worker : IngredientSpec → Except Unit ProductSearchResult) :
    List ProductSearchResult :=
  ingredients.map (fun ing =>
    match worker ing with
    | .ok r => r
    | .error _ => failedSearchResult ing)

/-- C7: a failure of one ingredient's resolution never cancels or fails the
batch. With the batch written as `xs ++ a :: ys` where `a`'s worker raised,
the output is exactly the outputs of `xs`, then the failed record for `a`
(success = false, no candidates, no best recommendation), then the outputs of
`ys`: every other ingredient's result is included unchanged and the batch
keeps one result per ingredient. -/
theorem C7_failure_isolated (xs ys : List IngredientSpec) (a : IngredientSpec)
    (worker : IngredientSpec → Except Unit ProductSearchResult)
    (h : worker a = .error ()) :
    execute_concurrent_searches (xs ++ a :: ys) worker
        = execute_concurrent_searches xs worker
          ++ failedSearchResult a :: execute_concurrent_searches ys worker ∧
    (failedSearchResult a).search_success = false ∧
    (failedSearchResult a).products_found = [] ∧
    (failedSearchResult a).best_recommendation = none ∧
    (execute_concurrent_searches (xs ++ a :: ys) worker).length = (xs ++ a :: ys).length := by
  refine ⟨?_, rfl, rfl, rfl, ?_⟩
  · unfold execute_concurrent_searches
    rw [List.map_append, List.map_cons, h]
  · unfold execute_concurrent_searches
    exact List.length_map _ _

/-- Concrete ingredient whose worker fails in the C7 witness. -/
def c7Failing : IngredientSpec :=
  { name := String.toList "egg", romanian_name := String.toList "oua",
    importance := String.toList "important", estimated_cost := 6 }

/-- Concrete ingredient whose worker succeeds in the C7 witness. -/
def c7Fine : IngredientSpec :=
  { name := String.toList "milk", romanian_name := String.toList "lapte",
    importance := String.toList "important", estimated_cost := 7 }

/-- Concrete successful result returned by the C7 witness worker. -/
def c7Result : ProductSearchResult :=
  { ingredient := String.toList "milk", search_terms_used := [String.toList "lapte"],
    products_found := [c1ProductA], best_recommendation := some c1ProductA,
    total_found := 1, search_success := true }

/-- Concrete worker for the C7 witness: raises on `c7Failing`, succeeds on
everything else. -/
def c7Worker : IngredientSpec → Except Unit ProductSearchResult := fun ing =>
  if ing.name = String.toList "egg" then Except.error () else Except.ok c7Result

/-- Witness for C7 at a concrete input. -/
theorem C7_failure_isolated_witness :
    execute_concurrent_searches ([c7Fine] ++ c7Failing :: [c7Fine]) c7Worker
        = execute_concurrent_searches [c7Fine] c7Worker
          ++ failedSearchResult c7Failing :: execute_concurrent_searches [c7Fine] c7Worker ∧
    (failedSearchResult c7Failing).search_success = false ∧
    (failedSearchResult c7Failing).products_found = [] ∧
    (failedSearchResult c7Failing).best_recommendation = none ∧
    (execute_concurrent_searches ([c7Fine] ++ c7Failing :: [c7Fine]) c7Worker).length
        = ([c7Fine] ++ c7Failing :: [c7Fine]).length :=
  C7_failure_isolated [c7Fine] [c7Fine] c7Failing c7Worker rfl

/-- The term list `_generate_search_terms` builds before its final
deduplication pass: the Romanian name if non-empty, then the English name if
non-empty and case-insensitively different from the Romanian name, then the
AI-suggested additional terms. `ai_terms` stands for the `additional_terms`
of the AI call; `[]` models both a failed call and an empty answer. -/
def plannedTerms (english_name romanian_name : Str) (ai_terms : List Str) : List Str :=
  ((if romanian_name ≠ [] then [romanian_name] else []) ++
    (if english_name ≠ [] ∧ strLower english_name ≠ strLower romanian_name
      then [english_name] else [])) ++ ai_terms

/-- The final loop of `_generate_search_terms`: keep a term when it is truthy
(non-empty) and its lowercase form has not been seen, first occurrence wins. -/
def dedupTermsGo : List Str → Finset Str → List Str
  | [], _ => []
  | t :: rest, seen =>
    if t ≠ [] ∧ strLower t ∉ seen then t :: dedupTermsGo rest (insert (strLower t) seen)
    else dedupTermsGo rest seen

/-- `_generate_search_terms` from `sub_agents/product_search/tools.py`:
deduplicate the planned terms case-insensitively, dropping empty terms, and
keep at most 5. -/
def generate_search_terms (english_name romanian_name : Str) (ai_terms : List Str) :
    List Str :=
  (dedupTermsGo (plannedTerms english_name romanian_name ai_terms) ∅).take 5

theorem dedupTermsGo_sublist (ts : List Str) :
    ∀ seen, (dedupTermsGo ts seen).Sublist ts := by
  induction ts with
  | nil =>
    intro seen
    exact List.Sublist.refl _
  | cons t rest ih =>
    intro seen
    by_cases hc : t ≠ [] ∧ strLower t ∉ seen
    · rw [dedupTermsGo, if_pos hc]
      exact List.Sublist.cons₂ t (ih _)
    · rw [dedupTermsGo, if_neg hc]
      exact List.Sublist.cons t (ih _)

theorem dedupTermsGo_mem (ts : List Str) :
    ∀ (seen : Finset Str) (x : Str), x ∈ dedupTermsGo ts seen →
      x ≠ [] ∧ strLower x ∉ seen := by
  induction ts with
  | nil =>
    intro seen x hx
    simp [dedupTermsGo] at hx
  | cons t rest ih =>
    intro seen x hx
    by_cases hc : t ≠ [] ∧ strLower t ∉ seen
    · rw [dedupTermsGo, if_pos hc] at hx
      rcases List.mem_cons.mp hx with h | h
      · subst h; exact hc
      · have := ih _ x h
        exact ⟨this.1, fun hmem => this.2 (Finset.mem_insert_of_mem hmem)⟩
    · rw [dedupTermsGo, if_neg hc] at hx
      exact ih _ x hx

theorem dedupTermsGo_pairwise (ts : List Str) :
    ∀ seen, (dedupTermsGo ts seen).Pairwise (fun a b => strLower a ≠ strLower b) := by
  induction ts with
  | nil =>
    intro seen
    simp [dedupTermsGo]
  | cons t rest ih =>
    intro seen
    by_cases hc : t ≠ [] ∧ strLower t ∉ seen
    · rw [dedupTermsGo, if_pos hc]
      refine List.Pairwise.cons ?_ (ih _)
      intro x hx he
      apply (dedupTermsGo_mem rest _ x hx).2
      rw [← he]
      exact Finset.mem_insert_self _ _
    · rw [dedupTermsGo, if_neg hc]
      exact ih _

theorem dedupTermsGo_ne_nil (ts : List Str) :
    ∀ seen, (∃ t ∈ ts, t ≠ [] ∧ strLower t ∉ seen) → dedupTermsGo ts seen ≠ [] := by
  induction ts with
  | nil =>
    intro seen h
    obtain ⟨t, ht, _⟩ := h
    simp at ht
  | cons t rest ih =>
    intro seen h
    by_cases hc : t ≠ [] ∧ strLower t ∉ seen
    · rw [dedupTermsGo, if_pos hc]
      exact List.cons_ne_nil _ _
    · rw [dedupTermsGo, if_neg hc]
      obtain ⟨u, hu, hprop⟩ := h
      rcases List.mem_cons.mp hu with h | h
      · subst h; exact absurd hprop hc
      · exact ih seen ⟨u, h, hprop⟩

theorem dedupTermsGo_first_wins (ts : List Str) :
    ∀ (seen : Finset Str) (u : Str), u ∈ dedupTermsGo ts seen →
      ∃ pre post, ts = pre ++ u :: post ∧
        ∀ x ∈ pre, x = [] ∨ strLower x ∈ seen ∨ strLower x ≠ strLower u := by
  induction ts with
  | nil =>
    intro seen u hu
    simp [dedupTermsGo] at hu
  | cons t rest ih =>
    intro seen u hu
    by_cases hc : t ≠ [] ∧ strLower t ∉ seen
    · rw [dedupTermsGo, if_pos hc] at hu
      rcases List.mem_cons.mp hu with h | h
      · subst h
        exact ⟨[], rest, rfl, by simp⟩
      · obtain ⟨pre, post, hsplit, hpre⟩ := ih _ u h
        have hut : strLower u ≠ strLower t := by
          intro he
          apply (dedupTermsGo_mem rest _ u h).2
          rw [he]
          exact Finset.mem_insert_self _ _
        refine ⟨t :: pre, post, by rw [hsplit]; rfl, ?_⟩
        intro x hx
        rcases List.mem_cons.mp hx with h' | h'
        · subst h'
          exact Or.inr (Or.inr (fun he => hut he.symm))
        · rcases hpre x h' with h'' | h'' | h''
          · exact Or.inl h''
          · rcases Finset.mem_insert.mp h'' with h3 | h3
            · exact Or.inr (Or.inr (by rw [h3]; exact fun he => hut he.symm))
            · exact Or.inr (Or.inl h3)
          · exact Or.inr (Or.inr h'')
    · rw [dedupTermsGo, if_neg hc] at hu
      obtain ⟨pre, post, hsplit, hpre⟩ := ih _ u hu
      refine ⟨t :: pre, post, by rw [hsplit]; rfl, ?_⟩
      intro x hx
      rcases List.mem_cons.mp hx with h' | h'
      · subst h'
        rcases Decidable.em (x = []) with he | he
        · exact Or.inl he
        · have : strLower x ∈ seen := by
            by_contra hn
            exact hc ⟨he, hn⟩
          exact Or.inr (Or.inl this)
      · exact hpre x h'

/-- C8 counterexample: an ingredient request whose name and Romanian name are
both empty, with no AI terms (for example when the AI call fails), produces an
empty term list — the planner's output is not always non-empty. -/
theorem C8_counterexample : generate_search_terms [] [] [] = [] := by decide

/-- C8 (amended): the term planner's output is an ordered list of at most 5
non-empty terms, deduplicated under case-insensitive comparison with the
first occurrence winning (every kept term is the first non-empty occurrence
of its case-folded form in the planned list, and order is preserved); it is
non-empty whenever the Romanian name, the English name, or at least one
AI-supplied term is non-empty, but it is empty when all of those are empty. -/
theorem C8_planner_output_shape (english_name romanian_name : Str) (ai_terms : List Str) :
    (generate_search_terms english_name romanian_name ai_terms).length ≤ 5 ∧
    (∀ t ∈ generate_search_terms english_name romanian_name ai_terms, t ≠ []) ∧
    (generate_search_terms english_name romanian_name ai_terms).Pairwise
        (fun a b => strLower a ≠ strLower b) ∧
    (generate_search_terms english_name romanian_name ai_terms).Sublist
        (plannedTerms english_name romanian_name ai_terms) ∧
    (∀ u ∈ generate_search_terms english_name romanian_name ai_terms,
      ∃ pre post, plannedTerms english_name romanian_name ai_terms = pre ++ u :: post ∧
        ∀ x ∈ pre, x = [] ∨ strLower x ≠ strLower u) ∧
    ((romanian_name ≠ [] ∨ english_name ≠ [] ∨ ∃ t ∈ ai_terms, t ≠ []) →
      generate_search_terms english_name romanian_name ai_terms ≠ []) := by
  refine ⟨?_, ?_, ?_, ?_, ?_, ?_⟩
  · rw [generate_search_terms, List.length_take]
    exact min_le_left _ _
  · intro t ht
    have ht' : t ∈ dedupTermsGo (plannedTerms english_name romanian_name ai_terms) ∅ :=
      List.Sublist.mem ht (List.take_sublist _ _)
    exact (dedupTermsGo_mem _ _ t ht').1
  · exact List.Pairwise.sublist (List.take_sublist _ _) (dedupTermsGo_pairwise _ _)
  · exact (List.take_sublist _ _).trans (dedupTermsGo_sublist _ _)
  · intro u hu
    have hu' : u ∈ dedupTermsGo (plannedTerms english_name romanian_name ai_terms) ∅ :=
      List.Sublist.mem hu (List.take_sublist _ _)
    obtain ⟨pre, post, hsplit, hpre⟩ := dedupTermsGo_first_wins _ _ u hu'
    refine ⟨pre, post, hsplit, ?_⟩
    intro x hx
    rcases hpre x hx with h | h | h
    · exact Or.inl h
    · exact absurd h (Finset.not_mem_empty _)
    · exact Or.inr h
  · intro hne
    have hex : ∃ t ∈ plannedTerms english_name romanian_name ai_terms,
        t ≠ [] ∧ strLower t ∉ (∅ : Finset Str) := by
      rcases hne with hr | he | ⟨t, ht, htne⟩
      · refine ⟨romanian_name, ?_, hr, Finset.not_mem_empty _⟩
        unfold plannedTerms
        rw [if_pos hr]
        exact List.mem_append_left _ (List.mem_append_left _ (List.mem_singleton_self _))
      · by_cases hr : romanian_name ≠ []
        · refine ⟨romanian_name, ?_, hr, Finset.not_mem_empty _⟩
          unfold plannedTerms
          rw [if_pos hr]
          exact List.mem_append_left _ (List.mem_append_left _ (List.mem_singleton_self _))
        · have hrnil : romanian_name = [] := not_not.mp hr
          have hcond : english_name ≠ [] ∧ strLower english_name ≠ strLower romanian_name := by
            refine ⟨he, ?_⟩
            rw [hrnil]
            intro hmap
            apply he
            have : strLower english_name = [] := hmap
            cases english_name with
            | nil => rfl
            | cons c cs => simp [strLower] at this
          refine ⟨english_name, ?_, he, Finset.not_mem_empty _⟩
          unfold plannedTerms
          rw [if_pos hcond]
          exact List.mem_append_left _ (List.mem_append_right _ (List.mem_singleton_self _))
      · refine ⟨t, ?_, htne, Finset.not_mem_empty _⟩
        exact List.mem_append_right _ ht
    have hdedup := dedupTermsGo_ne_nil _ _ hex
    rw [generate_search_terms]
    intro htake
    rcases List.take_eq_nil_iff.mp htake with h5 | h0
    · exact absurd h5 (by norm_num)
    · exact hdedup h0

/-- Witness for the amended C8 theorem at a concrete input. -/
theorem C8_planner_output_shape_witness :
    (generate_search_terms (String.toList "milk") (String.toList "lapte") []).length ≤ 5 ∧
    (∀ t ∈ generate_search_terms (String.toList "milk") (String.toList "lapte") [], t ≠ []) ∧
    (generate_search_terms (String.toList "milk") (String.toList "lapte") []).Pairwise
        (fun a b => strLower a ≠ strLower b) ∧
    (generate_search_terms (String.toList "milk") (String.toList "lapte") []).Sublist
        (plannedTerms (String.toList "milk") (String.toList "lapte") []) ∧
    (∀ u ∈ generate_search_terms (String.toList "milk") (String.toList "lapte") [],
      ∃ pre post,
        plannedTerms (String.toList "milk") (String.toList "lapte") [] = pre ++ u :: post ∧
        ∀ x ∈ pre, x = [] ∨ strLower x ≠ strLower u) ∧
    ((String.toList "lapte" ≠ [] ∨ String.toList "milk" ≠ [] ∨ ∃ t ∈ ([] : List Str), t ≠ []) →
      generate_search_terms (String.toList "milk") (String.toList "lapte") [] ≠ []) :=
  C8_planner_output_shape (String.toList "milk") (String.toList "lapte") []

/-- The `budget_analysis` object of the validation document, with its
`total_estimated_cost` field possibly absent. -/
structure BudgetAnalysisDoc where
  total_estimated_cost : Option ℚ
deriving DecidableEq

/-- The `automatic_selection_data` object of the validation document, with its
`budget_analysis` object possibly absent. -/
structure SelectionDataDoc where
  budget_analysis : Option BudgetAnalysisDoc
deriving DecidableEq

/-- The ingredient-validation document as consulted by
`_analyze_search_results`, with its `automatic_selection_data` object
possibly absent. -/
structure ValidationDataDoc where
  automatic_selection_data : Option SelectionDataDoc
deriving DecidableEq

/-- The `budget_compliance` tag of `_analyze_search_results`. -/
inductive BudgetCompliance where
  | within_budget
  | slightly_over
  | significantly_over
deriving DecidableEq

/-- The dictionary `_analyze_search_results` returns. -/
structure ShoppingAnalysis where
  successful_searches : Nat
  total_products_found : Nat
  total_estimated_cost_ron : ℚ
  success_rate : ℚ
  budget_compliance : BudgetCompliance
  average_products_per_ingredient : ℚ
deriving DecidableEq

/-- The budget lookup of `_analyze_search_results`:
`validation_data.get("automatic_selection_data", {}).get("budget_analysis",
{}).get("total_estimated_cost", 100.0)`. -/
def expected_budget (validation_data : ValidationDataDoc) : ℚ :=
  (((validation_data.automatic_selection_data).bind
      (fun sd => sd.budget_analysis)).bind
      (fun ba => ba.total_estimated_cost)).getD 100

/-- `_analyze_search_results` from `sub_agents/product_search/tools.py`. -/
def analyze_search_results (search_results : List ProductSearchResult)
    (validation_data : ValidationDataDoc) : ShoppingAnalysis :=
  let successful_searches := (search_results.filter (fun r => r.search_success)).length
  let total_products_found := (search_results.map (fun r => r.total_found)).sum
  let total_cost : ℚ :=
    ((search_results.filterMap (fun r => r.best_recommendation)).map (fun p => p.price)).sum
  let success_rate : ℚ :=
    if search_results = [] then 0
    else (successful_searches : ℚ) / (search_results.length : ℚ)
  let budget_compliance :=
    if total_cost ≤ expected_budget validation_data then BudgetCompliance.within_budget
    else if total_cost ≤ expected_budget validation_data * (12/10) then
      BudgetCompliance.slightly_over
    else BudgetCompliance.significantly_over
  { successful_searches := successful_searches
    total_products_found := total_products_found
    total_estimated_cost_ron := round2 total_cost
    success_rate := round2 success_rate
    budget_compliance := budget_compliance
    average_products_per_ingredient :=
      if search_results = [] then 0
      else (total_products_found : ℚ) / (search_results.length : ℚ) }

/-- The total `_analyze_search_results` computes: sum of best-recommendation
prices over all results that carry one. -/
def rawBestTotal (search_results : List ProductSearchResult) : ℚ :=
  ((search_results.filterMap (fun r => r.best_recommendation)).map (fun p => p.price)).sum

/-- The specification's componentwise total: sum of best-candidate prices over
the successful per-ingredient results. -/
def successfulBestTotal (search_results : List ProductSearchResult) : ℚ :=
  (((search_results.filter (fun r => r.search_success)).filterMap
      (fun r => r.best_recommendation)).map (fun p => p.price)).sum

theorem rawBestTotal_eq (rs : List ProductSearchResult) :
    (∀ r ∈ rs, r.search_success = true ↔ (r.best_recommendation).isSome = true) →
      rawBestTotal rs = successfulBestTotal rs := by
  induction rs with
  | nil =>
    intro _
    rfl
  | cons r rest ih =>
    intro h
    have hr := h r (List.mem_cons_self r rest)
    have ih' := ih (fun x hx => h x (List.mem_cons_of_mem r hx))
    unfold rawBestTotal successfulBestTotal at ih' ⊢
    cases hs : r.search_success with
    | false =>
      have hb : r.best_recommendation = none := by
        cases hb : r.best_recommendation with
        | none => rfl
        | some p =>
          have : r.search_success = true := hr.mpr (by rw [hb]; rfl)
          rw [hs] at this
          exact absurd this (by simp)
      simp only [List.filter_cons, List.filterMap_cons, hs, hb, Bool.false_eq_true,
        if_false]
      exact ih'
    | true =>
      have hb : (r.best_recommendation).isSome = true := hr.mp hs
      obtain ⟨p, hp⟩ := Option.isSome_iff_exists.mp hb
      simp only [List.filter_cons, List.filterMap_cons, hs, hp, if_true, List.map_cons,
        List.sum_cons]
      rw [ih']

/-- A concrete best product for the C5 input. -/
def c5Best : ProductInfo :=
  { name := String.toList "rosii cherry", price := 10, url := [], available := true,
    relevance_score := 1, package_size := none }

/-- A concrete successful per-ingredient result. -/
def c5Success : ProductSearchResult :=
  { ingredient := String.toList "tomato", search_terms_used := [String.toList "rosii"],
    products_found := [c5Best], best_recommendation := some c5Best,
    total_found := 1, search_success := true }

/-- A concrete failed per-ingredient result. -/
def c5Fail1 : ProductSearchResult :=
  { ingredient := String.toList "saffron", search_terms_used := [],
    products_found := [], best_recommendation := none, total_found := 0,
    search_success := false }

/-- Another concrete failed per-ingredient result. -/
def c5Fail2 : ProductSearchResult :=
  { ingredient := String.toList "vanilla", search_terms_used := [],
    products_found := [], best_recommendation := none, total_found := 0,
    search_success := false }

/-- C5 counterexample: with 1 successful result out of 3, the reported
success_rate field is 0.33 (the ratio rounded to 2 decimals by `round(...,
2)`), not the exact ratio 1/3 the claim states. -/
theorem C5_counterexample :
    (analyze_search_results [c5Success, c5Fail1, c5Fail2]
        (ValidationDataDoc.mk none)).success_rate = 33/100 ∧
    ((33:ℚ)/100) ≠ 1/3 := by
  constructor
  · have h0 : (analyze_search_results [c5Success, c5Fail1, c5Fail2]
        (ValidationDataDoc.mk none)).success_rate
        = round2 (((1:ℕ) : ℚ) / ((3:ℕ) : ℚ)) := rfl
    rw [h0]
    have hc : (((1:ℕ) : ℚ) / ((3:ℕ) : ℚ)) = 1/3 := by norm_num
    rw [hc]
    unfold round2 roundHalfEven
    have hfloor : ⌊(1:ℚ)/3 * 100⌋ = 33 := by
      rw [Int.floor_eq_iff]
      norm_num
    rw [hfloor]
    norm_num
  · norm_num

/-- C5 (amended): the batch aggregate matches the componentwise definition up
to the final 2-decimal rounding of the reported fields: the reported total
cost is the sum of best-candidate prices over successful results rounded to 2
decimals, the reported success_rate is successful_count/total_count rounded
to 2 decimals (0 for an empty batch), and the budget classification is
computed from the unrounded total: within_budget if it is at most the budget,
slightly_over if at most 1.2 times the budget, significantly_over otherwise. -/
theorem C5_aggregate_componentwise (rs : List ProductSearchResult) (v : ValidationDataDoc)
    (h : ∀ r ∈ rs, r.search_success = true ↔ (r.best_recommendation).isSome = true) :
    (analyze_search_results rs v).total_estimated_cost_ron
        = round2 (successfulBestTotal rs) ∧
    (analyze_search_results rs v).success_rate
        = round2 (if rs = [] then 0
            else ((rs.filter (fun r => r.search_success)).length : ℚ) / (rs.length : ℚ)) ∧
    (analyze_search_results rs v).budget_compliance
        = (if successfulBestTotal rs ≤ expected_budget v then BudgetCompliance.within_budget
          else if successfulBestTotal rs ≤ expected_budget v * (12/10) then
            BudgetCompliance.slightly_over
          else BudgetCompliance.significantly_over) := by
  have heq := rawBestTotal_eq rs h
  refine ⟨?_, rfl, ?_⟩
  · show round2 (rawBestTotal rs) = round2 (successfulBestTotal rs)
    rw [heq]
  · show (if rawBestTotal rs ≤ expected_budget v then BudgetCompliance.within_budget
        else if rawBestTotal rs ≤ expected_budget v * (12/10) then
          BudgetCompliance.slightly_over
        else BudgetCompliance.significantly_over)
      = (if successfulBestTotal rs ≤ expected_budget v then BudgetCompliance.within_budget
        else if successfulBestTotal rs ≤ expected_budget v * (12/10) then
          BudgetCompliance.slightly_over
        else BudgetCompliance.significantly_over)
    rw [heq]

/-- Witness for the amended C5 theorem at a concrete input. -/
theorem C5_aggregate_componentwise_witness :
    (∀ r ∈ [c5Success, c5Fail1, c5Fail2],
      r.search_success = true ↔ (r.best_recommendation).isSome = true) ∧
    ((analyze_search_results [c5Success, c5Fail1, c5Fail2]
        (ValidationDataDoc.mk none)).total_estimated_cost_ron
        = round2 (successfulBestTotal [c5Success, c5Fail1, c5Fail2]) ∧
    (analyze_search_results [c5Success, c5Fail1, c5Fail2]
        (ValidationDataDoc.mk none)).success_rate
        = round2 (if ([c5Success, c5Fail1, c5Fail2] : List ProductSearchResult) = [] then 0
            else (([c5Success, c5Fail1, c5Fail2].filter
                (fun r => r.search_success)).length : ℚ)
              / (([c5Success, c5Fail1, c5Fail2] : List ProductSearchResult).length : ℚ)) ∧
    (analyze_search_results [c5Success, c5Fail1, c5Fail2]
        (ValidationDataDoc.mk none)).budget_compliance
        = (if successfulBestTotal [c5Success, c5Fail1, c5Fail2]
              ≤ expected_budget (ValidationDataDoc.mk none) then
            BudgetCompliance.within_budget
          else if successfulBestTotal [c5Success, c5Fail1, c5Fail2]
              ≤ expected_budget (ValidationDataDoc.mk none) * (12/10) then
            BudgetCompliance.slightly_over
          else BudgetCompliance.significantly_over)) :=
  ⟨by decide, C5_aggregate_componentwise [c5Success, c5Fail1, c5Fail2]
    (ValidationDataDoc.mk none) (by decide)⟩

/-- C10: the budget used for the compliance classification is not a parameter
of the batch search: `_analyze_search_results` reads it from the validation
document's `automatic_selection_data.budget_analysis.total_estimated_cost`
field, falling back to 100.0 whenever that field or either enclosing object
is absent, and the classification is a function of the search results and
that budget alone: within_budget when the computed total is at most the
budget, slightly_over when at most 1.2 times the budget, significantly_over
otherwise. Since the model is a pure function of (results, validation
document), two batches with identical inputs classify identically. -/
theorem C10_budget_from_validation_doc (rs : List ProductSearchResult)
    (v : ValidationDataDoc) :
    (v.automatic_selection_data = none → expected_budget v = 100) ∧
    (∀ sd, v.automatic_selection_data = some sd → sd.budget_analysis = none →
      expected_budget v = 100) ∧
    (∀ sd ba, v.automatic_selection_data = some sd → sd.budget_analysis = some ba →
      ba.total_estimated_cost = none → expected_budget v = 100) ∧
    (∀ sd ba c, v.automatic_selection_data = some sd → sd.budget_analysis = some ba →
      ba.total_estimated_cost = some c → expected_budget v = c) ∧
    (analyze_search_results rs v).budget_compliance
        = (if rawBestTotal rs ≤ expected_budget v then BudgetCompliance.within_budget
          else if rawBestTotal rs ≤ expected_budget v * (12/10) then
            BudgetCompliance.slightly_over
          else BudgetCompliance.significantly_over) := by
  refine ⟨?_, ?_, ?_, ?_, rfl⟩
  · intro h1
    simp [expected_budget, h1]
  · intro sd h1 h2
    simp [expected_budget, h1, h2]
  · intro sd ba h1 h2 h3
    simp [expected_budget, h1, h2, h3]
  · intro sd ba c h1 h2 h3
    simp [expected_budget, h1, h2, h3]

/-- A concrete validation document carrying an explicit budget. -/
def c10Doc : ValidationDataDoc :=
  ValidationDataDoc.mk (some (SelectionDataDoc.mk (some (BudgetAnalysisDoc.mk (some 55)))))

/-- Witness for C10 at a concrete input. -/
theorem C10_budget_from_validation_doc_witness :
    (c10Doc.automatic_selection_data = none → expected_budget c10Doc = 100) ∧
    (∀ sd, c10Doc.automatic_selection_data = some sd → sd.budget_analysis = none →
      expected_budget c10Doc = 100) ∧
    (∀ sd ba, c10Doc.automatic_selection_data = some sd → sd.budget_analysis = some ba →
      ba.total_estimated_cost = none → expected_budget c10Doc = 100) ∧
    (∀ sd ba c, c10Doc.automatic_selection_data = some sd → sd.budget_analysis = some ba →
      ba.total_estimated_cost = some c → expected_budget c10Doc = c) ∧
    (analyze_search_results [] c10Doc).budget_compliance
        = (if rawBestTotal [] ≤ expected_budget c10Doc then BudgetCompliance.within_budget
          else if rawBestTotal [] ≤ expected_budget c10Doc * (12/10) then
            BudgetCompliance.slightly_over
          else BudgetCompliance.significantly_over) :=
  C10_budget_from_validation_doc [] c10Doc
